import Mathlib

/-!
Shallow embedding of `cp.py`, a small command-line copy utility.

The program's state is a destination filesystem mapped over paths; the
source tree is read-only during a run and is embedded as an inductive
tree whose constructors record the POSIX classification of each entry
as Python's `pathlib` reports it: `Path.is_file` and `Path.is_dir`
follow symbolic links, so a symlink whose resolution is a regular file
satisfies `is_file()` and one resolving to a directory satisfies
`is_dir()`; the `symlinkFile` / `symlinkDir` constructors carry the
resolved content / children.  `special` covers everything else
(device nodes, sockets, FIFOs, broken symlinks): both tests false.
-/

/-- A filesystem path, as its list of components. -/
abbrev FPath := List String

/-- A node of the destination filesystem: a regular file with its byte
content (bytes as naturals), a directory, or some other kind of entry
(device, socket, FIFO) that is neither. -/
inductive DNode where
  | file (content : List Nat)
  | dir
  | other
deriving DecidableEq

/-- The mutable destination filesystem: a partial map from paths to nodes. -/
def FS := FPath → Option DNode

/-- Update one path of the filesystem. -/
def FS.set (fs : FS) (p : FPath) (n : DNode) : FS :=
  fun q => if q = p then some n else fs q

/-- Python `Path.exists()` on the destination filesystem. -/
def existsAt (fs : FS) (p : FPath) : Bool :=
  (fs p).isSome

/-- Python `Path.is_file()` on the destination filesystem. -/
def isFileAt (fs : FS) (p : FPath) : Bool :=
  match fs p with
  | some (DNode.file _) => true
  | _ => false

/-- Python `Path.is_dir()` on the destination filesystem. -/
def isDirAt (fs : FS) (p : FPath) : Bool :=
  fs p = some DNode.dir

/-- Byte content of a regular file at a path, when one is there. -/
def readFileAt (fs : FS) (p : FPath) : Option (List Nat) :=
  match fs p with
  | some (DNode.file c) => some c
  | _ => none

/-- An OS-level error surfaced by a filesystem primitive (Python `OSError`). -/
inductive IoError where
  | fileExists (p : FPath)
  | missingParent (p : FPath)
  | isADirectory (p : FPath)
  | notWritable (p : FPath)
deriving DecidableEq

/-- Whether a path's parent exists so that a new entry may be created in
it: a single component is created in the current directory, which exists. -/
def parentOk (fs : FS) (p : FPath) : Bool :=
  match p with
  | [] => false
  | _ => p.dropLast = ([] : FPath) || isDirAt fs p.dropLast

/-- Python `Path.mkdir(exist_ok=True)`: an existing directory is
tolerated, an existing non-directory raises `FileExistsError`, and a
fresh directory needs its parent present. -/
def mkdirE (fs : FS) (p : FPath) : Except IoError FS :=
  match fs p with
  | some DNode.dir => Except.ok fs
  | some _ => Except.error (IoError.fileExists p)
  | none =>
    if parentOk fs p then Except.ok (fs.set p DNode.dir)
    else Except.error (IoError.missingParent p)

/-- Python `Path.touch()`: an existing entry of any kind merely has its
times updated; an absent one is created as an empty regular file. -/
def touchE (fs : FS) (p : FPath) : Except IoError FS :=
  match fs p with
  | some _ => Except.ok fs
  | none =>
    if parentOk fs p then Except.ok (fs.set p (DNode.file []))
    else Except.error (IoError.missingParent p)

/-- Python `open(p, 'wb')`: truncates an existing regular file or creates
a fresh one; opening a directory raises `IsADirectoryError`; a special
node is modelled as not writable by the byte copier. -/
def openWb (fs : FS) (p : FPath) : Except IoError FS :=
  match fs p with
  | some (DNode.file _) => Except.ok (fs.set p (DNode.file []))
  | some DNode.dir => Except.error (IoError.isADirectory p)
  | some DNode.other => Except.error (IoError.notWritable p)
  | none =>
    if parentOk fs p then Except.ok (fs.set p (DNode.file []))
    else Except.error (IoError.missingParent p)

/-- `dump(src, dest)` of `cp.py` (lines 31-33): reads the entire binary
content of the source — here the bytes `c` of the walker's source entry —
and writes it to `dest`, which `open('wb')` truncates or creates. -/
def dump (fs : FS) (c : List Nat) (dest : FPath) : Except IoError FS :=
  match openWb fs dest with
  | Except.ok fs1 => Except.ok (fs1.set dest (DNode.file c))
  | Except.error e => Except.error e

/-- A source-tree entry, by its `pathlib` classification (symlinks
resolved, see the module comment).  Directory children are named. -/
inductive Entry where
  | file (content : List Nat)
  | symlinkFile (content : List Nat)
  | dir (children : List (String × Entry))
  | symlinkDir (children : List (String × Entry))
  | special

/-- Python `src.is_file()`, which follows symlinks. -/
def entryIsFile : Entry → Bool
  | Entry.file _ => true
  | Entry.symlinkFile _ => true
  | _ => false

/-- Python `src.is_dir()`, which follows symlinks. -/
def entryIsDir : Entry → Bool
  | Entry.dir _ => true
  | Entry.symlinkDir _ => true
  | _ => false

/-- The bytes read from a source entry that passes `is_file()`. -/
def entryContent : Entry → List Nat
  | Entry.file c => c
  | Entry.symlinkFile c => c
  | _ => []

/-- The children enumerated from a source entry that passes `is_dir()`. -/
def entryChildren : Entry → List (String × Entry)
  | Entry.dir cs => cs
  | Entry.symlinkDir cs => cs
  | _ => []

/-- The classification an entry receives from the `is_file` / `is_dir` /
else cascade of `cp.py` (both `copy` and `copy_directory` test these two
predicates and fall through to an unsupported case). -/
inductive EntryKind where
  | fileKind
  | directoryKind
  | unsupportedKind
deriving DecidableEq

/-- Classify an entry exactly as the code's predicate cascade does. -/
def classify (e : Entry) : EntryKind :=
  if entryIsFile e then EntryKind.fileKind
  else if entryIsDir e then EntryKind.directoryKind
  else EntryKind.unsupportedKind

/-- Lowercase a string given as its characters (Python `str.lower()`). -/
def lowerStr (s : List Char) : List Char :=
  s.map Char.toLower

/-- The code's affirmative test on a prompt answer, from `cp.py` line 47:
`'y' in input(...).lower()`. -/
def answerConfirms (ans : List Char) : Bool :=
  (lowerStr ans).contains 'y'

/-- The per-entry overwrite decision of `copy_directory` (lines 44-49),
for a destination that already exists as a file.  Returns the decision
together with whether the interactive prompt was consulted.  The code
tests `interactive` first, then `override`; the prompt answer is `ans`. -/
def resolveOverwrite (override interactive : Bool) (ans : List Char) : Bool × Bool :=
  if interactive then (answerConfirms ans, true)
  else if override then (true, false)
  else (false, false)

/-- Whether `pat` occurs as a contiguous substring of the second list. -/
def hasInfix (pat : List Char) : List Char → Bool
  | [] => pat.isEmpty
  | c :: rest => pat.isPrefixOf (c :: rest) || hasInfix pat rest

/-- Affirmative test as the specification words it: the normalized
(lowercased) answer contains an affirmative token, case-insensitive
"yes" or "y", as a substring. -/
def specAffirmative (ans : List Char) : Bool :=
  hasInfix ['y', 'e', 's'] (lowerStr ans) || hasInfix ['y'] (lowerStr ans)

/-- The terminal `CpError` of `cp.py`, distinguished by the raise site:
overwrite refused at the top level (line 65), destination of a directory
copy not a directory (line 77), `-r` missing for a directory source
(line 79), unsupported top-level source type (line 85). -/
inductive CpError where
  | overwriteDenied (dest : FPath)
  | notADirectory (dest : FPath)
  | recursiveFlagRequired (src : FPath)
  | unsupportedFileType
deriving DecidableEq

/-- Any way a run can terminate abnormally: a raised `CpError`, or an
OS error propagated from a filesystem primitive. -/
inductive RunError where
  | cp (e : CpError)
  | io (e : IoError)
deriving DecidableEq

/-- An event reported by the walker or the file-copy path to the logger:
one per copied file, skipped existing file, skipped unsupported entry,
or directory recursed into. -/
inductive Event where
  | copied (src dest : FPath)
  | skippedExists (src dest : FPath)
  | skippedUnsupported (src : FPath)
  | recursed (src dest : FPath)
deriving DecidableEq

/-- The observable outcome of a run: the final destination filesystem,
the events emitted in order, and the terminal error if one was raised
(`none` means success).  Python exceptions do not roll mutations back,
so the filesystem at raise time is part of an erroneous result too. -/
structure RunResult where
  fs : FS
  events : List Event
  err : Option RunError


/-- Python `Path.name`: the final path component. -/
def pname (p : FPath) : String :=
  p.getLastD ""

/-- `copy_directory(src_dir, dest_dir, override, interactive)` of
`cp.py` (lines 36-58), over the enumerated children of the source
directory.  `sd` / `dd` are the source and destination directory paths
(used only to form the event paths), `pr` gives the answer the user
types when prompted about a destination path.  Per child: a directory
is logged, created with `mkdir(exist_ok=True)` and recursed into; a
file consults the overwrite decision when the destination child is an
existing file, then is touched and dumped or skipped; anything else is
logged as unsupported and skipped.  An OS error from a primitive
propagates and aborts the walk, keeping the mutations made so far. -/
def copy_directory (l : List (String × Entry)) (sd dd : FPath) (override interactive : Bool)
    (pr : FPath → List Char) (fs : FS) : RunResult :=
  match l with
  | [] => ⟨fs, [], none⟩
  | (n, e) :: rest =>
    let sc := sd ++ [n]
    let dc := dd ++ [n]
    match e with
    | Entry.dir cs =>
      match mkdirE fs dc with
      | Except.error er => ⟨fs, [Event.recursed sc dc], some (RunError.io er)⟩
      | Except.ok fs1 =>
        let r1 := copy_directory cs sc dc override interactive pr fs1
        match r1.err with
        | some er => ⟨r1.fs, Event.recursed sc dc :: r1.events, some er⟩
        | none =>
          let r2 := copy_directory rest sd dd override interactive pr r1.fs
          ⟨r2.fs, Event.recursed sc dc :: r1.events ++ r2.events, r2.err⟩
    | Entry.symlinkDir cs =>
      match mkdirE fs dc with
      | Except.error er => ⟨fs, [Event.recursed sc dc], some (RunError.io er)⟩
      | Except.ok fs1 =>
        let r1 := copy_directory cs sc dc override interactive pr fs1
        match r1.err with
        | some er => ⟨r1.fs, Event.recursed sc dc :: r1.events, some er⟩
        | none =>
          let r2 := copy_directory rest sd dd override interactive pr r1.fs
          ⟨r2.fs, Event.recursed sc dc :: r1.events ++ r2.events, r2.err⟩
    | Entry.file c =>
      let confirmed := if isFileAt fs dc then (resolveOverwrite override interactive (pr dc)).1 else true
      if confirmed then
        match touchE fs dc with
        | Except.error er => ⟨fs, [Event.copied sc dc], some (RunError.io er)⟩
        | Except.ok fs1 =>
          match dump fs1 c dc with
          | Except.error er => ⟨fs1, [Event.copied sc dc], some (RunError.io er)⟩
          | Except.ok fs2 =>
            let r := copy_directory rest sd dd override interactive pr fs2
            ⟨r.fs, Event.copied sc dc :: r.events, r.err⟩
      else
        let r := copy_directory rest sd dd override interactive pr fs
        ⟨r.fs, Event.skippedExists sc dc :: r.events, r.err⟩
    | Entry.symlinkFile c =>
      let confirmed := if isFileAt fs dc then (resolveOverwrite override interactive (pr dc)).1 else true
      if confirmed then
        match touchE fs dc with
        | Except.error er => ⟨fs, [Event.copied sc dc], some (RunError.io er)⟩
        | Except.ok fs1 =>
          match dump fs1 c dc with
          | Except.error er => ⟨fs1, [Event.copied sc dc], some (RunError.io er)⟩
          | Except.ok fs2 =>
            let r := copy_directory rest sd dd override interactive pr fs2
            ⟨r.fs, Event.copied sc dc :: r.events, r.err⟩
      else
        let r := copy_directory rest sd dd override interactive pr fs
        ⟨r.fs, Event.skippedExists sc dc :: r.events, r.err⟩
    | Entry.special =>
      let r := copy_directory rest sd dd override interactive pr fs
      ⟨r.fs, Event.skippedUnsupported sc :: r.events, r.err⟩

/-- `copy_file(src, dest, override)` of `cp.py` (lines 61-68): an
existing directory destination redirects to `dest / src.name`; an
existing file destination without `override` raises the overwrite
`CpError`; otherwise the destination is touched and the bytes dumped.
`sp` is the source path, `c` the source file's bytes. -/
def copy_file (fs : FS) (sp : FPath) (c : List Nat) (dest : FPath) (override : Bool) : RunResult :=
  let d := if isDirAt fs dest then dest ++ [pname sp] else dest
  if isFileAt fs d && !override then
    ⟨fs, [], some (RunError.cp (CpError.overwriteDenied d))⟩
  else
    match touchE fs d with
    | Except.error er => ⟨fs, [Event.copied sp d], some (RunError.io er)⟩
    | Except.ok fs1 =>
      match dump fs1 c d with
      | Except.error er => ⟨fs1, [Event.copied sp d], some (RunError.io er)⟩
      | Except.ok fs2 => ⟨fs2, [Event.copied sp d], none⟩

/-- `copy(src, dest, override, recursive, interactive)` of `cp.py`
(lines 71-85), the top-level orchestrator: a file source goes to
`copy_file` — note the code passes `override` only, not `interactive`;
a directory source first rejects an existing non-directory destination,
then a missing `-r`, then nests under an existing directory destination,
creates the root and walks; anything else is an unsupported source. -/
def copy (fs : FS) (sp : FPath) (src : Entry) (dest : FPath)
    (override recursive interactive : Bool) (pr : FPath → List Char) : RunResult :=
  if entryIsFile src then
    copy_file fs sp (entryContent src) dest override
  else if entryIsDir src then
    let destIsDir := isDirAt fs dest
    if !destIsDir && existsAt fs dest then
      ⟨fs, [], some (RunError.cp (CpError.notADirectory dest))⟩
    else if !recursive then
      ⟨fs, [], some (RunError.cp (CpError.recursiveFlagRequired sp))⟩
    else
      let d := if destIsDir then dest ++ [pname sp] else dest
      match mkdirE fs d with
      | Except.error er => ⟨fs, [], some (RunError.io er)⟩
      | Except.ok fs1 => copy_directory (entryChildren src) sp d override interactive pr fs1
  else
    ⟨fs, [], some (RunError.cp CpError.unsupportedFileType)⟩

/-- Sequential composition of run results: if the first part raised, the
second never runs; otherwise the second continues from the first's
filesystem and the event streams concatenate. -/
def andThen (r : RunResult) (k : FS → RunResult) : RunResult :=
  match r.err with
  | some _ => r
  | none => ⟨(k r.fs).fs, r.events ++ (k r.fs).events, (k r.fs).err⟩

/-- Recognizer for `copied` events. -/
def isCopiedEv : Event → Bool
  | Event.copied _ _ => true
  | _ => false

/-- Recognizer for `skippedExists` events. -/
def isSkipExistsEv : Event → Bool
  | Event.skippedExists _ _ => true
  | _ => false

/-- The destination already fully mirrors the source children under the
root `dd`: every source file has an existing destination file there and
every source directory an existing destination directory, recursively. -/
def mirrors (fs : FS) : FPath → List (String × Entry) → Bool
  | _, [] => true
  | dd, (n, Entry.file _) :: rest => isFileAt fs (dd ++ [n]) && mirrors fs dd rest
  | dd, (n, Entry.symlinkFile _) :: rest => isFileAt fs (dd ++ [n]) && mirrors fs dd rest
  | dd, (n, Entry.dir cs) :: rest =>
      (isDirAt fs (dd ++ [n]) && mirrors fs (dd ++ [n]) cs) && mirrors fs dd rest
  | dd, (n, Entry.symlinkDir cs) :: rest =>
      (isDirAt fs (dd ++ [n]) && mirrors fs (dd ++ [n]) cs) && mirrors fs dd rest
  | dd, (_, Entry.special) :: rest => mirrors fs dd rest

/-- Number of entries the walk classifies as files, through all
recursion levels. -/
def fileCount : List (String × Entry) → Nat
  | [] => 0
  | (_, Entry.file _) :: rest => 1 + fileCount rest
  | (_, Entry.symlinkFile _) :: rest => 1 + fileCount rest
  | (_, Entry.dir cs) :: rest => fileCount cs + fileCount rest
  | (_, Entry.symlinkDir cs) :: rest => fileCount cs + fileCount rest
  | (_, Entry.special) :: rest => fileCount rest

/-- Structural induction over named child lists of the source tree,
with hypotheses for a directory's children as well as for the tail. -/
def childInduction (P : List (String × Entry) → Prop)
    (hnil : P [])
    (hfile : ∀ n c rest, P rest → P ((n, Entry.file c) :: rest))
    (hsfile : ∀ n c rest, P rest → P ((n, Entry.symlinkFile c) :: rest))
    (hdir : ∀ n cs rest, P cs → P rest → P ((n, Entry.dir cs) :: rest))
    (hsdir : ∀ n cs rest, P cs → P rest → P ((n, Entry.symlinkDir cs) :: rest))
    (hspec : ∀ n rest, P rest → P ((n, Entry.special) :: rest)) :
    ∀ l, P l
  | [] => hnil
  | (n, Entry.file c) :: rest =>
    hfile n c rest (childInduction P hnil hfile hsfile hdir hsdir hspec rest)
  | (n, Entry.symlinkFile c) :: rest =>
    hsfile n c rest (childInduction P hnil hfile hsfile hdir hsdir hspec rest)
  | (n, Entry.dir cs) :: rest =>
    hdir n cs rest (childInduction P hnil hfile hsfile hdir hsdir hspec cs)
      (childInduction P hnil hfile hsfile hdir hsdir hspec rest)
  | (n, Entry.symlinkDir cs) :: rest =>
    hsdir n cs rest (childInduction P hnil hfile hsfile hdir hsdir hspec cs)
      (childInduction P hnil hfile hsfile hdir hsdir hspec rest)
  | (n, Entry.special) :: rest =>
    hspec n rest (childInduction P hnil hfile hsfile hdir hsdir hspec rest)

/-- Prompt collaborator that always answers with an empty line. -/
def prNo : FPath → List Char := fun _ => []

/-- Prompt collaborator that always answers "yes". -/
def prYes : FPath → List Char := fun _ => ['y', 'e', 's']

/-- An empty destination filesystem. -/
def fsEmpty : FS := fun _ => none

/-- Destination holding one regular file at `b`. -/
def fsB : FS := fun p => if p = ["b"] then some (DNode.file [5]) else none

/-- Destination holding one directory at `d`. -/
def fsD : FS := fun p => if p = ["d"] then some DNode.dir else none

/-- Destination tree that fully mirrors `srcMirror` under root `d`. -/
def fsMirror : FS := fun p =>
  if p = ["d"] then some DNode.dir
  else if p = ["d", "x"] then some (DNode.file [9])
  else if p = ["d", "sub"] then some DNode.dir
  else if p = ["d", "sub", "y"] then some (DNode.file [2])
  else none

/-- A small source tree: a file and a subdirectory holding a file. -/
def srcMirror : List (String × Entry) :=
  [("x", Entry.file [1]), ("sub", Entry.dir [("y", Entry.file [2])])]

/-! Helper lemmas. -/

/-- A path holding a file is not a directory. -/
theorem isFileAt_true_iff (fs : FS) (p : FPath) :
    isFileAt fs p = true ↔ ∃ c, fs p = some (DNode.file c) := by
  unfold isFileAt
  cases h : fs p with
  | none => simp
  | some n => cases n <;> simp

/-- Unfolding of the directory test. -/
theorem isDirAt_true_iff (fs : FS) (p : FPath) :
    isDirAt fs p = true ↔ fs p = some DNode.dir := by
  simp [isDirAt]

/-- A path holding a file is not a directory. -/
theorem isFileAt_not_dir (fs : FS) (p : FPath) (h : isFileAt fs p = true) :
    isDirAt fs p = false := by
  obtain ⟨c, hc⟩ := (isFileAt_true_iff fs p).1 h
  simp [isDirAt, hc]

/-- A nonexistent path is not a directory. -/
theorem not_exists_not_dir (fs : FS) (p : FPath) (h : existsAt fs p = false) :
    isDirAt fs p = false := by
  unfold existsAt at h
  cases hc : fs p with
  | none => simp [isDirAt, hc]
  | some n => rw [hc] at h; simp at h

/-- A singleton substring test is an element test. -/
theorem hasInfix_singleton (a : Char) (l : List Char) :
    hasInfix [a] l = l.contains a := by
  induction l with
  | nil => simp [hasInfix]
  | cons c rest ih =>
    simp only [hasInfix, List.isPrefixOf, ih, List.contains_cons]
    rw [Bool.eq_iff_iff]
    simp

/-- A substring starting with `a` forces `a` to occur in the list. -/
theorem hasInfix_head (a : Char) (pat l : List Char)
    (h : hasInfix (a :: pat) l = true) : a ∈ l := by
  induction l with
  | nil => simp [hasInfix] at h
  | cons c rest ih =>
    simp only [hasInfix, List.isPrefixOf, Bool.or_eq_true, Bool.and_eq_true] at h
    rcases h with ⟨hac, _⟩ | hrest
    · exact List.mem_cons.2 (Or.inl (eq_of_beq hac))
    · exact List.mem_cons.2 (Or.inr (ih hrest))

/-- The specification's affirmative test ("contains yes or y") agrees
with the code's test ("contains the character y"). -/
theorem specAffirmative_eq (ans : List Char) :
    specAffirmative ans = answerConfirms ans := by
  unfold specAffirmative answerConfirms
  rw [hasInfix_singleton]
  cases h : hasInfix ['y', 'e', 's'] (lowerStr ans) with
  | false => simp
  | true => simp [h, hasInfix_head 'y' ['e', 's'] (lowerStr ans) h]

/-! Claim theorems. -/

/-- C4: conflict resolution for an existing destination file follows the
three-way policy: under FORCE it always proceeds and never prompts;
under ASK the prompt is consulted and the copy proceeds exactly when
the lowercased response contains an affirmative token ("yes"/"y"),
everything else — including empty input — denying; under DENY (both
flags unset, the default) it denies immediately without prompting. -/
theorem conflict_resolution_three_way (ans : List Char) :
    resolveOverwrite true false ans = (true, false) ∧
    resolveOverwrite false true ans = (specAffirmative ans, true) ∧
    resolveOverwrite false false ans = (false, false) := by
  refine ⟨rfl, ?_, rfl⟩
  simp [resolveOverwrite, specAffirmative_eq]

/-- C10: when the walker is invoked with both override (FORCE) and
interactive (ASK) set, interactive takes precedence: the whole walk is
identical to the walk with the override flag cleared, and every
conflicting destination file consults the prompt, whose answer decides. -/
theorem interactive_takes_precedence_over_override :
    (∀ (l : List (String × Entry)) (sd dd : FPath) (pr : FPath → List Char) (fs : FS),
      copy_directory l sd dd true true pr fs = copy_directory l sd dd false true pr fs) ∧
    (∀ ans, resolveOverwrite true true ans = (answerConfirms ans, true)) := by
  constructor
  · intro l sd dd pr fs
    refine childInduction
      (fun l => ∀ (sd dd : FPath) (pr : FPath → List Char) (fs : FS),
        copy_directory l sd dd true true pr fs = copy_directory l sd dd false true pr fs)
      ?_ ?_ ?_ ?_ ?_ ?_ l sd dd pr fs
    · intro sd dd pr fs
      simp [copy_directory]
    · intro n c rest ih sd dd pr fs
      simp [copy_directory, resolveOverwrite, ih]
    · intro n c rest ih sd dd pr fs
      simp [copy_directory, resolveOverwrite, ih]
    · intro n cs rest ih1 ih2 sd dd pr fs
      simp [copy_directory, ih1, ih2]
    · intro n cs rest ih1 ih2 sd dd pr fs
      simp [copy_directory, ih1, ih2]
    · intro n rest ih sd dd pr fs
      simp [copy_directory, ih]
  · intro ans
    rfl

/-- C5: round-trip identity of the byte-copy primitive: whenever `dump`
succeeds, the destination afterwards holds exactly the bytes that were
read from the source at the time of the copy. -/
theorem dump_round_trip (fs : FS) (c : List Nat) (dest : FPath) (fs1 : FS)
    (h : dump fs c dest = Except.ok fs1) :
    readFileAt fs1 dest = some c := by
  unfold dump at h
  cases ho : openWb fs dest with
  | ok fs2 =>
    rw [ho] at h
    cases h
    simp [readFileAt, FS.set]
  | error e =>
    rw [ho] at h
    cases h

/-- Witness for C5 on a concrete filesystem. -/
theorem dump_round_trip_witness :
    readFileAt (FS.set (FS.set fsEmpty ["b"] (DNode.file [])) ["b"] (DNode.file [1, 2])) ["b"]
      = some [1, 2] :=
  dump_round_trip fsEmpty [1, 2] ["b"] _ rfl

/-- C7: copying a directory source onto an existing non-directory
destination fails with `NotADirectory` and mutates nothing: the
returned filesystem is the input one and no event is emitted. -/
theorem dir_onto_nondir_not_a_directory (fs : FS) (sp : FPath) (src : Entry) (dest : FPath)
    (o r i : Bool) (pr : FPath → List Char)
    (hdir : entryIsDir src = true)
    (hex : existsAt fs dest = true)
    (hnd : isDirAt fs dest = false) :
    copy fs sp src dest o r i pr
      = ⟨fs, [], some (RunError.cp (CpError.notADirectory dest))⟩ := by
  have hnf : entryIsFile src = false := by
    cases src <;> simp_all [entryIsDir, entryIsFile]
  simp [copy, hnf, hdir, hnd, hex]

/-- Witness for C7: directory source onto a file destination. -/
theorem dir_onto_nondir_not_a_directory_witness :
    copy fsB ["s"] (Entry.dir []) ["b"] false true false prNo
      = ⟨fsB, [], some (RunError.cp (CpError.notADirectory ["b"]))⟩ :=
  dir_onto_nondir_not_a_directory fsB ["s"] (Entry.dir []) ["b"] false true false prNo
    rfl (by decide) (by decide)

/-- C2 counterexample: a directory source, `recursive = false`, and a
destination that exists as a file: the run fails with `NotADirectory`,
not with `RecursiveFlagRequired` as the claim predicts for every
destination. -/
theorem not_a_directory_precedes_recursive_flag :
    (copy fsB ["s"] (Entry.dir []) ["b"] false false false prNo).err
        = some (RunError.cp (CpError.notADirectory ["b"])) ∧
    (copy fsB ["s"] (Entry.dir []) ["b"] false false false prNo).err
        ≠ some (RunError.cp (CpError.recursiveFlagRequired ["s"])) :=
  ⟨by decide, by decide⟩

/-- C2 amended: with a directory source and `recursive = false`, the run
fails with `RecursiveFlagRequired` and performs zero filesystem mutation
whenever the destination is a directory or does not exist; an existing
non-directory destination instead fails earlier with `NotADirectory`. -/
theorem recursive_flag_error_when_dest_ok (fs : FS) (sp : FPath) (src : Entry) (dest : FPath)
    (o i : Bool) (pr : FPath → List Char)
    (hdir : entryIsDir src = true)
    (hok : isDirAt fs dest = true ∨ existsAt fs dest = false) :
    copy fs sp src dest o false i pr
      = ⟨fs, [], some (RunError.cp (CpError.recursiveFlagRequired sp))⟩ := by
  have hnf : entryIsFile src = false := by
    cases src <;> simp_all [entryIsDir, entryIsFile]
  rcases hok with h | h
  · simp [copy, hnf, hdir, h]
  · simp [copy, hnf, hdir, h, not_exists_not_dir fs dest h]

/-- Witness for amended C2: directory source into an existing directory. -/
theorem recursive_flag_error_when_dest_ok_witness :
    copy fsD ["s"] (Entry.dir []) ["d"] false false false prNo
      = ⟨fsD, [], some (RunError.cp (CpError.recursiveFlagRequired ["s"]))⟩ :=
  recursive_flag_error_when_dest_ok fsD ["s"] (Entry.dir []) ["d"] false false prNo
    rfl (Or.inl (by decide))

/-- C1 counterexample: a top-level single-file copy onto an existing
destination file under ASK (interactive set, override clear), with a
prompt collaborator that would answer "yes": the run still fails with
`OverwriteDenied` — the prompt is never consulted at the top level,
contradicting both "fails exactly when the policy is DENY" and "the
three-way policy behaves identically at the top level". -/
theorem ask_not_consulted_at_top_level :
    (copy fsB ["a"] (Entry.file [1]) ["b"] false false true prYes).err
        = some (RunError.cp (CpError.overwriteDenied ["b"])) ∧
    answerConfirms (prYes ["b"]) = true :=
  ⟨by decide, by decide⟩

/-- C1 amended: a top-level single-file copy onto an existing
destination file ignores the interactive flag and the prompt entirely
(the call forwards only `override`), and fails with `OverwriteDenied`
exactly when `override` (FORCE) is not set — so ASK behaves like DENY
at the top level, while FORCE proceeds. -/
theorem top_level_overwrite_requires_force (fs : FS) (sp : FPath) (c : List Nat)
    (dest : FPath) (o r i : Bool) (pr : FPath → List Char)
    (hf : isFileAt fs dest = true) :
    copy fs sp (Entry.file c) dest o r i pr = copy_file fs sp c dest o ∧
    ((copy fs sp (Entry.file c) dest o r i pr).err
        = some (RunError.cp (CpError.overwriteDenied dest)) ↔ o = false) := by
  have hfirst : copy fs sp (Entry.file c) dest o r i pr = copy_file fs sp c dest o := by
    simp [copy, entryIsFile, entryContent]
  refine ⟨hfirst, ?_⟩
  rw [hfirst]
  obtain ⟨c0, hc⟩ := (isFileAt_true_iff fs dest).1 hf
  have hnd : isDirAt fs dest = false := isFileAt_not_dir fs dest hf
  cases o with
  | false => simp [copy_file, hnd, hf]
  | true => simp [copy_file, hnd, hf, touchE, dump, openWb, hc]

/-- Witness for amended C1 at a concrete destination file under DENY. -/
theorem top_level_overwrite_requires_force_witness :
    copy fsB ["a"] (Entry.file [1]) ["b"] false false false prNo
        = copy_file fsB ["a"] [1] ["b"] false ∧
    ((copy fsB ["a"] (Entry.file [1]) ["b"] false false false prNo).err
        = some (RunError.cp (CpError.overwriteDenied ["b"])) ↔ false = false) :=
  top_level_overwrite_requires_force fsB ["a"] [1] ["b"] false false false prNo (by decide)

/-- C8: with a directory source and recursion enabled, the effective
copy root is `dest / src.name` when the destination already exists as a
directory, and `dest` itself when the destination does not exist; in
both cases the root is created and the walk starts there. -/
theorem dir_root_nests_under_existing_dir (fs : FS) (sp : FPath) (src : Entry)
    (dest : FPath) (o i : Bool) (pr : FPath → List Char)
    (hdir : entryIsDir src = true) :
    (isDirAt fs dest = true →
      copy fs sp src dest o true i pr
        = (match mkdirE fs (dest ++ [pname sp]) with
           | Except.error er => ⟨fs, [], some (RunError.io er)⟩
           | Except.ok fs1 =>
              copy_directory (entryChildren src) sp (dest ++ [pname sp]) o i pr fs1)) ∧
    (existsAt fs dest = false →
      copy fs sp src dest o true i pr
        = (match mkdirE fs dest with
           | Except.error er => ⟨fs, [], some (RunError.io er)⟩
           | Except.ok fs1 => copy_directory (entryChildren src) sp dest o i pr fs1)) := by
  have hnf : entryIsFile src = false := by
    cases src <;> simp_all [entryIsDir, entryIsFile]
  constructor
  · intro h
    simp [copy, hnf, hdir, h]
  · intro h
    simp [copy, hnf, hdir, h, not_exists_not_dir fs dest h]

/-- Witness for C8: copying a directory into an existing directory `d`
nests the walk at `d / s`. -/
theorem dir_root_nests_under_existing_dir_witness :
    isDirAt fsD ["d"] = true ∧
    copy fsD ["s"] (Entry.dir []) ["d"] false true false prNo
      = (match mkdirE fsD (["d"] ++ [pname ["s"]]) with
         | Except.error er => ⟨fsD, [], some (RunError.io er)⟩
         | Except.ok fs1 =>
            copy_directory (entryChildren (Entry.dir [])) ["s"] (["d"] ++ [pname ["s"]])
              false false prNo fs1) :=
  ⟨by decide,
   (dir_root_nests_under_existing_dir fsD ["s"] (Entry.dir []) ["d"] false false prNo rfl).1
     (by decide)⟩

/-- C3 counterexample: a symlink child whose resolution is a regular
file is classified as a file by the walk and is copied — event and
written bytes included — not skipped as the claim predicts for
symbolic links. -/
theorem symlink_child_copied_not_skipped :
    classify (Entry.symlinkFile [7]) = EntryKind.fileKind ∧
    (copy_directory [("l", Entry.symlinkFile [7])] ["s"] ["d"] false false prNo fsD).events
        = [Event.copied ["s", "l"] ["d", "l"]] ∧
    (copy_directory [("l", Entry.symlinkFile [7])] ["s"] ["d"] false false prNo fsD).err
        = none ∧
    readFileAt (copy_directory [("l", Entry.symlinkFile [7])] ["s"] ["d"] false false prNo fsD).fs
        ["d", "l"] = some [7] := by
  refine ⟨rfl, ?_, ?_, ?_⟩ <;>
    simp [copy_directory, fsD, isFileAt, touchE, dump, openWb, parentOk, isDirAt, FS.set,
      prNo, readFileAt]

/-- C3 amended: classification yields Unsupported exactly for entries
that are neither a regular file nor a directory after symlink
resolution (broken symlinks, devices, sockets, FIFOs); a symlink
resolving to a file or directory is classified File or Directory and is
followed.  A top-level unsupported source fails with
`UnsupportedFileType`; an unsupported child inside a walk is skipped. -/
theorem unsupported_is_special_only (e : Entry) :
    (classify e = EntryKind.unsupportedKind ↔ e = Entry.special) ∧
    (∀ (fs : FS) (sp dest : FPath) (o r i : Bool) (pr : FPath → List Char),
      copy fs sp Entry.special dest o r i pr
        = ⟨fs, [], some (RunError.cp CpError.unsupportedFileType)⟩) ∧
    (∀ (n : String) (rest : List (String × Entry)) (sd dd : FPath) (o i : Bool)
        (pr : FPath → List Char) (fs : FS),
      copy_directory ((n, Entry.special) :: rest) sd dd o i pr fs
        = ⟨(copy_directory rest sd dd o i pr fs).fs,
           Event.skippedUnsupported (sd ++ [n])
             :: (copy_directory rest sd dd o i pr fs).events,
           (copy_directory rest sd dd o i pr fs).err⟩) := by
  refine ⟨?_, ?_, ?_⟩
  · cases e <;> simp [classify, entryIsFile, entryIsDir]
  · intro fs sp dest o r i pr
    simp [copy, entryIsFile, entryIsDir]
  · intro n rest sd dd o i pr fs
    simp [copy_directory]

/-- C6: re-running the recursive walk with overwrite DENY (both flags
clear) over a destination that already fully mirrors the source touches
nothing: the filesystem comes back unchanged, no error is raised, no
file is copied, and one `skippedExists` event is emitted per source
file. -/
theorem deny_rerun_skips_all_files (l : List (String × Entry)) (sd dd : FPath)
    (pr : FPath → List Char) (fs : FS) (hm : mirrors fs dd l = true) :
    (copy_directory l sd dd false false pr fs).fs = fs ∧
    (copy_directory l sd dd false false pr fs).err = none ∧
    (copy_directory l sd dd false false pr fs).events.countP isCopiedEv = 0 ∧
    (copy_directory l sd dd false false pr fs).events.countP isSkipExistsEv = fileCount l := by
  refine childInduction
    (fun l => ∀ (sd dd : FPath) (pr : FPath → List Char) (fs : FS),
      mirrors fs dd l = true →
      (copy_directory l sd dd false false pr fs).fs = fs ∧
      (copy_directory l sd dd false false pr fs).err = none ∧
      (copy_directory l sd dd false false pr fs).events.countP isCopiedEv = 0 ∧
      (copy_directory l sd dd false false pr fs).events.countP isSkipExistsEv = fileCount l)
    ?_ ?_ ?_ ?_ ?_ ?_ l sd dd pr fs hm
  · intro sd dd pr fs _
    simp [copy_directory, fileCount]
  · intro n c rest ih sd dd pr fs hm
    simp only [mirrors, Bool.and_eq_true] at hm
    obtain ⟨hf, hr⟩ := hm
    obtain ⟨h1, h2, h3, h4⟩ := ih sd dd pr fs hr
    refine ⟨?_, ?_, ?_, ?_⟩ <;>
      simp [copy_directory, hf, resolveOverwrite, h1, h2, h3, h4, fileCount,
        List.countP_cons, isCopiedEv, isSkipExistsEv, Nat.add_comm]
  · intro n c rest ih sd dd pr fs hm
    simp only [mirrors, Bool.and_eq_true] at hm
    obtain ⟨hf, hr⟩ := hm
    obtain ⟨h1, h2, h3, h4⟩ := ih sd dd pr fs hr
    refine ⟨?_, ?_, ?_, ?_⟩ <;>
      simp [copy_directory, hf, resolveOverwrite, h1, h2, h3, h4, fileCount,
        List.countP_cons, isCopiedEv, isSkipExistsEv, Nat.add_comm]
  · intro n cs rest ih1 ih2 sd dd pr fs hm
    simp only [mirrors, Bool.and_eq_true] at hm
    obtain ⟨⟨hd, hcs⟩, hr⟩ := hm
    have hfs : fs (dd ++ [n]) = some DNode.dir := (isDirAt_true_iff fs (dd ++ [n])).1 hd
    obtain ⟨a1, a2, a3, a4⟩ := ih1 (sd ++ [n]) (dd ++ [n]) pr fs hcs
    obtain ⟨b1, b2, b3, b4⟩ := ih2 sd dd pr fs hr
    refine ⟨?_, ?_, ?_, ?_⟩ <;>
      simp [copy_directory, mkdirE, hfs, a1, a2, a3, a4, b1, b2, b3, b4, fileCount,
        List.countP_cons, List.countP_append, isCopiedEv, isSkipExistsEv, Nat.add_comm]
  · intro n cs rest ih1 ih2 sd dd pr fs hm
    simp only [mirrors, Bool.and_eq_true] at hm
    obtain ⟨⟨hd, hcs⟩, hr⟩ := hm
    have hfs : fs (dd ++ [n]) = some DNode.dir := (isDirAt_true_iff fs (dd ++ [n])).1 hd
    obtain ⟨a1, a2, a3, a4⟩ := ih1 (sd ++ [n]) (dd ++ [n]) pr fs hcs
    obtain ⟨b1, b2, b3, b4⟩ := ih2 sd dd pr fs hr
    refine ⟨?_, ?_, ?_, ?_⟩ <;>
      simp [copy_directory, mkdirE, hfs, a1, a2, a3, a4, b1, b2, b3, b4, fileCount,
        List.countP_cons, List.countP_append, isCopiedEv, isSkipExistsEv, Nat.add_comm]
  · intro n rest ih sd dd pr fs hm
    simp only [mirrors] at hm
    obtain ⟨h1, h2, h3, h4⟩ := ih sd dd pr fs hm
    refine ⟨?_, ?_, ?_, ?_⟩ <;>
      simp [copy_directory, h1, h2, h3, h4, fileCount, List.countP_cons,
        isCopiedEv, isSkipExistsEv]

/-- Witness for C6 on a concrete mirrored tree with a file and a
subdirectory holding a file. -/
theorem deny_rerun_skips_all_files_witness :
    mirrors fsMirror ["d"] srcMirror = true ∧
    ((copy_directory srcMirror ["s"] ["d"] false false prNo fsMirror).fs = fsMirror ∧
     (copy_directory srcMirror ["s"] ["d"] false false prNo fsMirror).err = none ∧
     (copy_directory srcMirror ["s"] ["d"] false false prNo fsMirror).events.countP isCopiedEv
        = 0 ∧
     (copy_directory srcMirror ["s"] ["d"] false false prNo fsMirror).events.countP
        isSkipExistsEv = fileCount srcMirror) :=
  ⟨by simp [mirrors, srcMirror, fsMirror, isFileAt, isDirAt],
   deny_rerun_skips_all_files srcMirror ["s"] ["d"] prNo fsMirror
     (by simp [mirrors, srcMirror, fsMirror, isFileAt, isDirAt])⟩

/-- Prepending events to the first stage commutes with sequential
composition of run results. -/
theorem andThen_prepend (r : RunResult) (k : FS → RunResult) (evs : List Event) :
    andThen ⟨r.fs, evs ++ r.events, r.err⟩ k
      = ⟨(andThen r k).fs, evs ++ (andThen r k).events, (andThen r k).err⟩ := by
  unfold andThen
  cases h : r.err <;> simp [h]

/-- The walk over a concatenation of child lists is the sequential
composition of the two walks: the second part runs exactly when the
first raised no error, continuing from its filesystem. -/
theorem copy_directory_append (ys : List (String × Entry)) (sd dd : FPath)
    (o i : Bool) (pr : FPath → List Char) (xs : List (String × Entry)) (fs : FS) :
    copy_directory (xs ++ ys) sd dd o i pr fs
      = andThen (copy_directory xs sd dd o i pr fs) (copy_directory ys sd dd o i pr) := by
  refine childInduction
    (fun xs => ∀ fs,
      copy_directory (xs ++ ys) sd dd o i pr fs
        = andThen (copy_directory xs sd dd o i pr fs) (copy_directory ys sd dd o i pr))
    ?_ ?_ ?_ ?_ ?_ ?_ xs fs
  · intro fs
    simp [copy_directory, andThen]
  · intro n c rest ih fs
    simp only [List.cons_append, copy_directory]
    cases hcf : (if isFileAt fs (dd ++ [n]) then (resolveOverwrite o i (pr (dd ++ [n]))).1
        else true) with
    | false =>
      simp only [hcf, Bool.false_eq_true, if_false, ih fs]
      simpa using (andThen_prepend (copy_directory rest sd dd o i pr fs)
        (copy_directory ys sd dd o i pr)
        [Event.skippedExists (sd ++ [n]) (dd ++ [n])]).symm
    | true =>
      simp only [hcf, if_true]
      cases ht : touchE fs (dd ++ [n]) with
      | error er => simp [ht, andThen]
      | ok fs1 =>
        simp only [ht]
        cases hdm : dump fs1 c (dd ++ [n]) with
        | error er => simp [hdm, andThen]
        | ok fs2 =>
          simp only [hdm, ih fs2]
          simpa using (andThen_prepend (copy_directory rest sd dd o i pr fs2)
            (copy_directory ys sd dd o i pr)
            [Event.copied (sd ++ [n]) (dd ++ [n])]).symm
  · intro n c rest ih fs
    simp only [List.cons_append, copy_directory]
    cases hcf : (if isFileAt fs (dd ++ [n]) then (resolveOverwrite o i (pr (dd ++ [n]))).1
        else true) with
    | false =>
      simp only [hcf, Bool.false_eq_true, if_false, ih fs]
      simpa using (andThen_prepend (copy_directory rest sd dd o i pr fs)
        (copy_directory ys sd dd o i pr)
        [Event.skippedExists (sd ++ [n]) (dd ++ [n])]).symm
    | true =>
      simp only [hcf, if_true]
      cases ht : touchE fs (dd ++ [n]) with
      | error er => simp [ht, andThen]
      | ok fs1 =>
        simp only [ht]
        cases hdm : dump fs1 c (dd ++ [n]) with
        | error er => simp [hdm, andThen]
        | ok fs2 =>
          simp only [hdm, ih fs2]
          simpa using (andThen_prepend (copy_directory rest sd dd o i pr fs2)
            (copy_directory ys sd dd o i pr)
            [Event.copied (sd ++ [n]) (dd ++ [n])]).symm
  · intro n cs rest ih1 ih2 fs
    simp only [List.cons_append, copy_directory]
    cases hmk : mkdirE fs (dd ++ [n]) with
    | error er => simp [hmk, andThen]
    | ok fs1 =>
      simp only [hmk]
      cases h1 : (copy_directory cs (sd ++ [n]) (dd ++ [n]) o i pr fs1).err with
      | some er => simp [h1, andThen]
      | none =>
        simp only [h1, ih2]
        simpa using (andThen_prepend
          (copy_directory rest sd dd o i pr (copy_directory cs (sd ++ [n]) (dd ++ [n]) o i pr fs1).fs)
          (copy_directory ys sd dd o i pr)
          (Event.recursed (sd ++ [n]) (dd ++ [n])
            :: (copy_directory cs (sd ++ [n]) (dd ++ [n]) o i pr fs1).events)).symm
  · intro n cs rest ih1 ih2 fs
    simp only [List.cons_append, copy_directory]
    cases hmk : mkdirE fs (dd ++ [n]) with
    | error er => simp [hmk, andThen]
    | ok fs1 =>
      simp only [hmk]
      cases h1 : (copy_directory cs (sd ++ [n]) (dd ++ [n]) o i pr fs1).err with
      | some er => simp [h1, andThen]
      | none =>
        simp only [h1, ih2]
        simpa using (andThen_prepend
          (copy_directory rest sd dd o i pr (copy_directory cs (sd ++ [n]) (dd ++ [n]) o i pr fs1).fs)
          (copy_directory ys sd dd o i pr)
          (Event.recursed (sd ++ [n]) (dd ++ [n])
            :: (copy_directory cs (sd ++ [n]) (dd ++ [n]) o i pr fs1).events)).symm
  · intro n rest ih fs
    simp only [List.cons_append, copy_directory, ih fs]
    simpa using (andThen_prepend (copy_directory rest sd dd o i pr fs)
      (copy_directory ys sd dd o i pr)
      [Event.skippedUnsupported (sd ++ [n])]).symm

/-- C9: an unsupported entry anywhere in the enumeration never aborts
the walk: the walk over `xs ++ [unsupported] ++ ys` is the walk over
the preceding siblings `xs`, then — whenever `xs` raised no error — a
single `skippedUnsupported` event with no error and no filesystem
change, then the walk over the remaining siblings `ys` exactly as they
would run otherwise. -/
theorem unsupported_entry_skip_continues_walk (xs ys : List (String × Entry)) (n : String)
    (sd dd : FPath) (o i : Bool) (pr : FPath → List Char) (fs : FS) :
    copy_directory (xs ++ (n, Entry.special) :: ys) sd dd o i pr fs
      = andThen (copy_directory xs sd dd o i pr fs)
          (fun fs1 =>
            ⟨(copy_directory ys sd dd o i pr fs1).fs,
             Event.skippedUnsupported (sd ++ [n])
               :: (copy_directory ys sd dd o i pr fs1).events,
             (copy_directory ys sd dd o i pr fs1).err⟩) := by
  have hk : copy_directory ((n, Entry.special) :: ys) sd dd o i pr
      = fun fs1 =>
          ⟨(copy_directory ys sd dd o i pr fs1).fs,
           Event.skippedUnsupported (sd ++ [n])
             :: (copy_directory ys sd dd o i pr fs1).events,
           (copy_directory ys sd dd o i pr fs1).err⟩ := by
    funext fs1
    simp [copy_directory]
  rw [copy_directory_append ((n, Entry.special) :: ys) sd dd o i pr xs fs, hk]
